import Mathlib

/-!
Verification development for the APE rigid-body physics binding
(`bindings/python/ape.py`) and the simulation core it drives.

The visible source is the Python ctypes binding: the dynamic-library
loader, the structure layouts crossing the C ABI boundary, and the
`smoke` scenario.  The engine behind the C ABI (BodyTable, Integrator,
World) is not part of the visible source; it is modelled here from the
specification (semi-implicit Euler integration, handle table,
validation rules).  32-bit float values are modelled as exact rationals
together with explicit non-finite values (NaN, infinities), so that the
finiteness checks of the spec are expressible.
-/

namespace Ape

/-- Error taxonomy of the World operations (spec section 7). -/
inductive ApeError
  | invalidArgument
  | invalidHandle
  | preconditionViolation
  deriving DecidableEq, Repr

/-- Modelled from the spec: a 32-bit float scalar crossing the boundary,
modelled as either a finite exact rational or one of the non-finite
values NaN, +inf, -inf. -/
inductive FVal
  | fin (q : ℚ)
  | nan
  | posInf
  | negInf
  deriving DecidableEq

/-- Whether a modelled float value is finite. -/
def FVal.isFinite : FVal → Bool
  | .fin _ => true
  | _ => false

/-- The rational value of a finite modelled float (0 for non-finite). -/
def FVal.val : FVal → ℚ
  | .fin q => q
  | _ => 0

/-- Modelled from the spec: Vector3, three finite floating-point
components, held as exact rationals inside the engine. -/
@[ext]
structure Vec3 where
  x : ℚ
  y : ℚ
  z : ℚ
  deriving DecidableEq

/-- Componentwise vector addition. -/
def Vec3.add (a b : Vec3) : Vec3 :=
  ⟨a.x + b.x, a.y + b.y, a.z + b.z⟩

/-- Scalar multiplication of a vector. -/
def Vec3.smul (c : ℚ) (a : Vec3) : Vec3 :=
  ⟨c * a.x, c * a.y, c * a.z⟩

/-- The zero vector. -/
def Vec3.zero : Vec3 := ⟨0, 0, 0⟩

/-- A boundary-side Vector3: three float values that may be non-finite. -/
structure FVec3 where
  x : FVal
  y : FVal
  z : FVal
  deriving DecidableEq

/-- All three components are finite. -/
def FVec3.isFinite (v : FVec3) : Bool :=
  v.x.isFinite && v.y.isFinite && v.z.isFinite

/-- The engine-side value of a boundary vector. -/
def FVec3.val (v : FVec3) : Vec3 :=
  ⟨v.x.val, v.y.val, v.z.val⟩

/-- Modelled from the spec: RigidBodyDesc, the creation descriptor
crossing the boundary: position, velocity, mass. -/
structure RigidBodyDesc where
  position : FVec3
  velocity : FVec3
  mass : FVal
  deriving DecidableEq

/-- Modelled from the spec: the stored state of one rigid body:
position, velocity, strictly positive mass, and a force accumulator. -/
@[ext]
structure Body where
  position : Vec3
  velocity : Vec3
  mass : ℚ
  force : Vec3
  deriving DecidableEq

/-- Modelled from the spec: a World owns the body table (handle/body
pairs, in creation order) and the next handle to mint. -/
structure World where
  bodies : List (ℕ × Body)
  nextHandle : ℕ
  deriving DecidableEq

/-- Modelled from the spec: `create()` allocates an empty BodyTable. -/
def World.create : World := ⟨[], 0⟩

/-- Modelled from the spec: gravity is the constant (0, -9.81, 0). -/
def gravity : Vec3 := ⟨0, -(981 / 100), 0⟩

/-- The handles issued by a world that are live in its table. -/
def World.handles (w : World) : List ℕ :=
  w.bodies.map Prod.fst

/-- Modelled from the spec: `create_body` validates that the mass is
finite and strictly positive and that all vector components are finite;
on success it appends a fresh slot (force accumulator zeroed) under a
freshly minted handle and bumps the handle counter; on failure it
creates no partial state. -/
def World.create_body (w : World) (d : RigidBodyDesc) :
    Except ApeError (World × ℕ) :=
  if d.mass.isFinite = true ∧ 0 < d.mass.val ∧
      d.position.isFinite = true ∧ d.velocity.isFinite = true then
    .ok (⟨w.bodies ++ [(w.nextHandle,
            ⟨d.position.val, d.velocity.val, d.mass.val, Vec3.zero⟩)],
          w.nextHandle + 1⟩,
         w.nextHandle)
  else
    .error .invalidArgument

/-- Modelled from the spec: one semi-implicit Euler update of a single
body: total force = accumulator + gravity * mass, acceleration =
total force / mass, velocity updated first, position from the updated
velocity, accumulator reset to zero. -/
def integrate (dt : ℚ) (b : Body) : Body :=
  let totalForce := b.force.add (Vec3.smul b.mass gravity)
  let accel := Vec3.smul (1 / b.mass) totalForce
  let v := b.velocity.add (Vec3.smul dt accel)
  let p := b.position.add (Vec3.smul dt v)
  ⟨p, v, b.mass, Vec3.zero⟩

/-- Modelled from the spec: `step(dt)` validates that dt is finite and
non-negative, then advances every live body in place; a negative or
non-finite dt fails with InvalidArgument and mutates nothing. -/
def World.step (w : World) (dt : FVal) : Except ApeError World :=
  if dt.isFinite = true ∧ 0 ≤ dt.val then
    .ok ⟨w.bodies.map (fun hb => (hb.1, integrate dt.val hb.2)), w.nextHandle⟩
  else
    .error .invalidArgument

/-- Modelled from the spec: `get_position(handle)` resolves the handle
in this world's table and returns a copy of the stored position, or
fails with InvalidHandle if the handle was never issued here. -/
def World.get_position (w : World) (h : ℕ) : Except ApeError Vec3 :=
  match w.bodies.find? (fun hb => hb.1 == h) with
  | some hb => .ok hb.2.position
  | none => .error .invalidHandle

/-- Run `n` successive `step` calls with the same dt, stopping at the
first failure (mirrors the loop in the binding's `smoke`). -/
def stepsN (w : World) (dt : FVal) : ℕ → Except ApeError World
  | 0 => .ok w
  | n + 1 => (w.step dt).bind (fun w2 => stepsN w2 dt n)

/-- The descriptor built by the binding's `smoke` function:
position (0, 5, 0), velocity (0, 0, 0), mass 1.0. -/
def smokeDesc : RigidBodyDesc :=
  ⟨⟨.fin 0, .fin 5, .fin 0⟩, ⟨.fin 0, .fin 0, .fin 0⟩, .fin 1⟩

/-- The binding's `smoke` scenario: create a world and one body, step
60 times with dt = 1/60, and return the body's final y-position. -/
def smoke : Except ApeError ℚ :=
  (World.create.create_body smokeDesc).bind (fun wr =>
    (stepsN wr.1 (.fin (1 / 60)) 60).bind (fun w2 =>
      (w2.get_position wr.2).map Vec3.y))

/-! ### ctypes structure layouts (from the binding source) -/

/-- A scalar ctypes type used by the binding. -/
inductive CScalar
  | c_float
  | c_uint
  deriving DecidableEq

/-- Bit width of a scalar ctypes type. -/
def CScalar.bitWidth : CScalar → ℕ
  | .c_float => 32
  | .c_uint => 32

/-- Whether the scalar type is an unsigned integer type. -/
def CScalar.isUnsignedInt : CScalar → Bool
  | .c_uint => true
  | .c_float => false

/-- Whether the scalar type is a floating-point type. -/
def CScalar.isFloat : CScalar → Bool
  | .c_float => true
  | .c_uint => false

/-- A field type in a ctypes structure of the binding: either a scalar
or a nested structure given by its ordered field list (the only nested
structure in the binding is Vec3). -/
inductive CField
  | scalar (s : CScalar)
  | struct (fields : List (String × CScalar))
  deriving DecidableEq

/-- Bit width of a field (structures: sum of field widths; all scalars
used here are 4 bytes, so there is no padding). -/
def CField.bitWidth : CField → ℕ
  | .scalar s => s.bitWidth
  | .struct fs => (fs.map (fun f => f.2.bitWidth)).sum

/-- `class Vec3(ctypes.Structure)` with fields x, y, z of c_float. -/
def Vec3Layout : List (String × CScalar) :=
  [("x", .c_float), ("y", .c_float), ("z", .c_float)]

/-- `class RigidBodyDesc(ctypes.Structure)` with fields position,
velocity (Vec3) and mass (c_float), in that order. -/
def RigidBodyDescLayout : List (String × CField) :=
  [("position", .struct Vec3Layout), ("velocity", .struct Vec3Layout),
   ("mass", .scalar .c_float)]

/-- `ape_world_create_rigidbody.restype = ctypes.c_uint`: the body
handle crossing the boundary. -/
def createRigidbodyRestype : CScalar := .c_uint

/-! ### Dynamic-library loader (from the binding source) -/

/-- The fixed ordered candidate list probed by the loader, relative to
the build root: `build/libape_c.so`, `build/ape_c.dll`,
`build/libape_c.dylib`. -/
def lib_candidates (root : String) : List String :=
  [root ++ "/build/libape_c.so",
   root ++ "/build/ape_c.dll",
   root ++ "/build/libape_c.dylib"]

/-- Where the loader resolved the library from. -/
inductive LibSource
  | buildTree (path : String)
  | systemSearch (lib : String)
  deriving DecidableEq

/-- The loader's resolution policy: the first existing candidate wins;
if none exists, fall back to the platform search with the bare name
`ape_c`. `pathExists` abstracts `os.path.exists`. -/
def resolveLib (root : String) (pathExists : String → Bool) : LibSource :=
  match (lib_candidates root).find? pathExists with
  | some p => .buildTree p
  | none => .systemSearch "ape_c"

/-- The error raised out of module initialization when the dynamic
loader cannot produce a library. -/
inductive LoadError
  | osError
  deriving DecidableEq

/-- Module initialization: resolve the library per `resolveLib`, then
load it with `ctypes.CDLL`; a failing load raises, which propagates out
of the import. `canLoad` abstracts whether `ctypes.CDLL` succeeds on a
given name or path. -/
def moduleInit (root : String) (pathExists canLoad : String → Bool) :
    Except LoadError LibSource :=
  match resolveLib root pathExists with
  | .buildTree p => if canLoad p then .ok (.buildTree p) else .error .osError
  | .systemSearch n =>
      if canLoad n then .ok (.systemSearch n) else .error .osError

/-- Run a sequence of `step` calls with the given dt values, stopping
at the first failure. -/
def runSteps (w : World) : List FVal → Except ApeError World
  | [] => .ok w
  | d :: ds => (w.step d).bind (fun w2 => runSteps w2 ds)

/-- Table well-formedness: every live handle is below the mint
counter (holds for every world reachable from `create`). -/
def World.WF (w : World) : Prop :=
  ∀ p ∈ w.bodies, p.1 < w.nextHandle

/-- Two step outcomes agree up to the body table: both fail with the
same error, or both succeed with identical tables. -/
def BodiesEq : Except ApeError World → Except ApeError World → Prop
  | .ok a, .ok b => a.bodies = b.bodies
  | .error e1, .error e2 => e1 = e2
  | _, _ => False

/-! ### Helper lemmas -/

/-- The smoke body's exact state after `n` integration steps with
dt = 1/60: velocity y is `-g dt n`, position y is `5 - g dt^2 n(n+1)/2`. -/
def smokeBody (n : ℕ) : Body :=
  ⟨⟨0, 5 - (981 / 100) * (1 / 3600) * (((n : ℚ) * ((n : ℚ) + 1)) / 2), 0⟩,
   ⟨0, -(981 / 100) * (1 / 60) * (n : ℚ), 0⟩, 1, Vec3.zero⟩

/-- With a finite non-negative dt, `n` steps succeed and iterate the
integrator over every slot, body table keys and order unchanged. -/
theorem stepsN_ok (q : ℚ) (hq : 0 ≤ q) (w : World) (n : ℕ) :
    stepsN w (.fin q) n =
      .ok ⟨w.bodies.map (fun hb => (hb.1, (integrate q)^[n] hb.2)),
           w.nextHandle⟩ := by
  induction n generalizing w with
  | zero => simp [stepsN]
  | succ n ih =>
      rw [stepsN, World.step]
      simp only [FVal.isFinite, FVal.val, true_and, if_pos hq]
      rw [Except.bind, ih]
      simp [List.map_map, Function.comp_def, Function.iterate_succ_apply]

/-- Closed form of the iterated integrator on the smoke body. -/
theorem integrate_smokeBody (n : ℕ) :
    (integrate (1 / 60))^[n] ⟨⟨0, 5, 0⟩, ⟨0, 0, 0⟩, 1, Vec3.zero⟩ =
      smokeBody n := by
  induction n with
  | zero => simp [smokeBody, Vec3.zero]
  | succ n ih =>
      rw [Function.iterate_succ_apply', ih]
      simp only [integrate, smokeBody, Vec3.add, Vec3.smul, Vec3.zero,
        gravity]
      ext <;> push_cast <;> ring

/-! ### Claims -/

/-- C1: the binding's smoke scenario (one body at position (0, 5, 0),
velocity 0, mass 1, stepped 60 times with dt = 1/60) yields the
semi-implicit Euler recurrence value 5 - 9.81 * (1/3600) * 1830 for the
final y-position, which differs from the continuous closed-form fall
value 5 - (1/2) * 9.81 * 1^2. -/
theorem smoke_semi_implicit_euler_value :
    smoke = .ok (5 - (981 / 100) * (1 / 3600) * 1830) ∧
      (5 - (981 / 100) * (1 / 3600) * 1830 : ℚ) ≠
        5 - (1 / 2) * (981 / 100) * 1 ^ 2 := by
  constructor
  · have hcb : World.create.create_body smokeDesc =
        .ok (⟨[(0, ⟨⟨0, 5, 0⟩, ⟨0, 0, 0⟩, 1, Vec3.zero⟩)], 1⟩, 0) := by
      simp [World.create_body, World.create, smokeDesc, FVal.isFinite,
        FVal.val, FVec3.isFinite, FVec3.val, Vec3.zero]
    rw [smoke, hcb, Except.bind, stepsN_ok (1 / 60) (by norm_num)]
    simp only [List.map_cons, List.map_nil]
    rw [integrate_smokeBody]
    simp only [Except.bind, World.get_position, List.find?, smokeBody,
      Except.map, beq_self_eq_true, Except.ok.injEq]
    norm_num
  · norm_num

/-- `step` depends only on the body table and dt: worlds with equal
tables step to outcomes with equal tables (or fail identically). -/
theorem step_congr (w1 w2 : World) (dt : FVal) (h : w1.bodies = w2.bodies) :
    BodiesEq (w1.step dt) (w2.step dt) := by
  by_cases hc : dt.isFinite = true ∧ 0 ≤ dt.val
  · simp [World.step, hc, BodiesEq, h]
  · simp [World.step, hc, BodiesEq]

/-- `runSteps` congruence: equal tables stay equal under any sequence
of dt values. -/
theorem runSteps_congr (dts : List FVal) (w1 w2 : World)
    (h : w1.bodies = w2.bodies) :
    BodiesEq (runSteps w1 dts) (runSteps w2 dts) := by
  induction dts generalizing w1 w2 with
  | nil => simpa [runSteps, BodiesEq]
  | cons d ds ih =>
      have hs := step_congr w1 w2 d h
      rw [runSteps, runSteps]
      cases h1 : w1.step d with
      | error e1 =>
          cases h2 : w2.step d with
          | error e2 =>
              rw [h1, h2] at hs
              simpa [Except.bind, BodiesEq] using hs
          | ok b => rw [h1, h2] at hs; exact absurd hs (by simp [BodiesEq])
      | ok a =>
          cases h2 : w2.step d with
          | error e2 => rw [h1, h2] at hs; exact absurd hs (by simp [BodiesEq])
          | ok b =>
              rw [h1, h2] at hs
              simpa [Except.bind] using ih a b hs

/-- `get_position` depends only on the body table. -/
theorem get_position_congr (w1 w2 : World) (hd : ℕ)
    (h : w1.bodies = w2.bodies) :
    w1.get_position hd = w2.get_position hd := by
  rw [World.get_position, World.get_position, h]

/-- C2: stepping is deterministic: two Worlds with identical body
tables, stepped with the same sequence of dt values, report identical
positions for every handle — the step relation is a pure function of
the table and the dt sequence, with no other inputs. -/
theorem step_deterministic (w1 w2 : World) (dts : List FVal) (hd : ℕ)
    (h : w1.bodies = w2.bodies) :
    (runSteps w1 dts).bind (fun w => w.get_position hd) =
      (runSteps w2 dts).bind (fun w => w.get_position hd) := by
  have hr := runSteps_congr dts w1 w2 h
  cases h1 : runSteps w1 dts with
  | error e1 =>
      cases h2 : runSteps w2 dts with
      | error e2 =>
          rw [h1, h2] at hr
          simp [Except.bind, BodiesEq] at hr
          rw [hr]
      | ok b => rw [h1, h2] at hr; exact absurd hr (by simp [BodiesEq])
  | ok a =>
      cases h2 : runSteps w2 dts with
      | error e2 => rw [h1, h2] at hr; exact absurd hr (by simp [BodiesEq])
      | ok b =>
          rw [h1, h2] at hr
          simp only [BodiesEq] at hr
          simp [Except.bind, get_position_congr a b hd hr]

/-- Witness for C2 at a concrete input: two worlds with the same
(empty) table but different mint counters, one step of dt = 1. -/
theorem step_deterministic_witness :
    (World.create.bodies = (World.mk [] 7).bodies) ∧
      (runSteps World.create [.fin 1]).bind (fun w => w.get_position 0) =
        (runSteps (World.mk [] 7) [.fin 1]).bind
          (fun w => w.get_position 0) :=
  ⟨rfl, step_deterministic World.create (World.mk [] 7) [.fin 1] 0 rfl⟩

/-- C3: the boundary structure layouts: Vec3 is three 32-bit floats in
field order x, y, z; RigidBodyDesc is position, velocity (both Vec3),
then mass (32-bit float); the body handle returned by
`ape_world_create_rigidbody` is an unsigned 32-bit integer. -/
theorem boundary_layouts :
    Vec3Layout.map Prod.fst = ["x", "y", "z"] ∧
      Vec3Layout.map Prod.snd = [.c_float, .c_float, .c_float] ∧
      CScalar.c_float.isFloat = true ∧
      CScalar.c_float.bitWidth = 32 ∧
      RigidBodyDescLayout.map Prod.fst = ["position", "velocity", "mass"] ∧
      RigidBodyDescLayout.map Prod.snd =
        [.struct Vec3Layout, .struct Vec3Layout, .scalar .c_float] ∧
      createRigidbodyRestype.isUnsignedInt = true ∧
      createRigidbodyRestype.bitWidth = 32 :=
  ⟨rfl, rfl, rfl, rfl, rfl, rfl, rfl, rfl⟩

/-- C4: loader resolution order: the first existing candidate in the
fixed list wins (each candidate is preferred over every later one and
over the fallback), and the bare-name system fallback `ape_c` is used
exactly when no candidate path exists. -/
theorem resolveLib_order (root : String) (pathExists : String → Bool) :
    (pathExists (root ++ "/build/libape_c.so") = true →
       resolveLib root pathExists =
         .buildTree (root ++ "/build/libape_c.so")) ∧
    (pathExists (root ++ "/build/libape_c.so") = false →
       pathExists (root ++ "/build/ape_c.dll") = true →
       resolveLib root pathExists =
         .buildTree (root ++ "/build/ape_c.dll")) ∧
    (pathExists (root ++ "/build/libape_c.so") = false →
       pathExists (root ++ "/build/ape_c.dll") = false →
       pathExists (root ++ "/build/libape_c.dylib") = true →
       resolveLib root pathExists =
         .buildTree (root ++ "/build/libape_c.dylib")) ∧
    (pathExists (root ++ "/build/libape_c.so") = false →
       pathExists (root ++ "/build/ape_c.dll") = false →
       pathExists (root ++ "/build/libape_c.dylib") = false →
       resolveLib root pathExists = .systemSearch "ape_c") := by
  refine ⟨fun h1 => ?_, fun h1 h2 => ?_, fun h1 h2 h3 => ?_,
    fun h1 h2 h3 => ?_⟩ <;>
    simp [resolveLib, lib_candidates, List.find?, *]

/-- Witness for C4 at a concrete input: only the second candidate (the
.dll) exists, and it is chosen. -/
theorem resolveLib_order_witness :
    ((fun s => s == "r/build/ape_c.dll") ("r" ++ "/build/libape_c.so")
        = false) ∧
      ((fun s => s == "r/build/ape_c.dll") ("r" ++ "/build/ape_c.dll")
        = true) ∧
      resolveLib "r" (fun s => s == "r/build/ape_c.dll") =
        .buildTree ("r" ++ "/build/ape_c.dll") := by
  refine ⟨by decide, by decide, ?_⟩
  exact (resolveLib_order "r" (fun s => s == "r/build/ape_c.dll")).2.1
    (by decide) (by decide)

/-- C5: `create_body` with non-positive (finite) mass fails with
InvalidArgument; no world/handle pair is produced, so the table and
all existing body state are unchanged. -/
theorem create_body_nonpositive_mass (w : World) (d : RigidBodyDesc)
    (q : ℚ) (hm : d.mass = .fin q) (hq : q ≤ 0) :
    w.create_body d = .error .invalidArgument := by
  rw [World.create_body, if_neg]
  rintro ⟨-, hpos, -⟩
  rw [hm] at hpos
  simp only [FVal.val] at hpos
  exact absurd hpos (not_lt.mpr hq)

/-- Witness for C5 at a concrete input: mass 0 is rejected on a fresh
world. -/
theorem create_body_nonpositive_mass_witness :
    ((⟨⟨.fin 0, .fin 5, .fin 0⟩, ⟨.fin 0, .fin 0, .fin 0⟩,
        .fin 0⟩ : RigidBodyDesc).mass = .fin 0) ∧
      (0 : ℚ) ≤ 0 ∧
      World.create.create_body
          ⟨⟨.fin 0, .fin 5, .fin 0⟩, ⟨.fin 0, .fin 0, .fin 0⟩, .fin 0⟩ =
        .error .invalidArgument :=
  ⟨rfl, le_refl 0,
    create_body_nonpositive_mass World.create _ 0 rfl (le_refl 0)⟩

/-- C6: `step` with dt = 0 succeeds and leaves every live body's
position and velocity exactly unchanged (handles, order and count
included). -/
theorem step_zero_noop (w : World) :
    ∃ w2, w.step (.fin 0) = .ok w2 ∧
      w2.bodies.map (fun hb => (hb.1, hb.2.position, hb.2.velocity)) =
        w.bodies.map (fun hb => (hb.1, hb.2.position, hb.2.velocity)) := by
  refine ⟨⟨w.bodies.map (fun hb => (hb.1, integrate 0 hb.2)),
    w.nextHandle⟩, ?_, ?_⟩
  · simp [World.step, FVal.isFinite, FVal.val]
  · rw [List.map_map]
    congr 1
    funext hb
    simp [Function.comp_def, integrate, Vec3.add, Vec3.smul]

/-- C7: `step` with a negative or non-finite dt fails with
InvalidArgument; no world is produced, so no body is even partially
stepped. -/
theorem step_invalid_dt (w : World) (dt : FVal)
    (h : dt.isFinite = false ∨ ∃ q, dt = .fin q ∧ q < 0) :
    w.step dt = .error .invalidArgument := by
  rw [World.step, if_neg]
  rintro ⟨hfin, hnn⟩
  rcases h with h | ⟨q, rfl, hq⟩
  · rw [h] at hfin
    exact Bool.false_ne_true hfin
  · simp only [FVal.val] at hnn
    exact absurd hnn (not_le.mpr hq)

/-- Witness for C7 at concrete inputs: dt = -1 and dt = NaN are both
rejected on a fresh world. -/
theorem step_invalid_dt_witness :
    ((FVal.fin (-1)).isFinite = false ∨
        ∃ q, FVal.fin (-1) = .fin q ∧ q < 0) ∧
      World.create.step (.fin (-1)) = .error .invalidArgument ∧
      World.create.step .nan = .error .invalidArgument :=
  ⟨.inr ⟨-1, rfl, by norm_num⟩,
    step_invalid_dt World.create (.fin (-1))
      (.inr ⟨-1, rfl, by norm_num⟩),
    step_invalid_dt World.create .nan (.inl rfl)⟩

/-- C8: handle monotonicity: on a well-formed table, a successful
`create_body` returns a handle strictly greater than every previously
issued live handle, preserves well-formedness, and a subsequent
successful `create_body` returns a strictly greater handle again. -/
theorem create_body_handles_monotonic (w : World) (d : RigidBodyDesc)
    (w2 : World) (h : ℕ) (hwf : w.WF)
    (hc : w.create_body d = .ok (w2, h)) :
    (∀ h0 ∈ w.handles, h0 < h) ∧ w2.WF ∧
      ∀ d2 w3 h2, w2.create_body d2 = .ok (w3, h2) → h < h2 := by
  rw [World.create_body] at hc
  split at hc
  case isFalse => simp at hc
  case isTrue =>
    simp only [Except.ok.injEq, Prod.mk.injEq] at hc
    obtain ⟨hw2, hh⟩ := hc
    subst hw2
    subst hh
    refine ⟨?_, ?_, ?_⟩
    · intro h0 hh0
      obtain ⟨p, hp, hph⟩ := List.mem_map.mp hh0
      exact hph ▸ hwf p hp
    · intro p hp
      rcases List.mem_append.mp hp with hold | hnew
      · exact Nat.lt_succ_of_lt (hwf p hold)
      · simp only [List.mem_singleton] at hnew
        subst hnew
        exact Nat.lt_succ_self _
    · intro d2 w3 h2 hc2
      rw [World.create_body] at hc2
      split at hc2
      case isFalse => simp at hc2
      case isTrue =>
        simp only [Except.ok.injEq, Prod.mk.injEq] at hc2
        exact hc2.2 ▸ Nat.lt_succ_self _

/-- Witness for C8 at a concrete input: a fresh world, which is
well-formed, accepts the smoke descriptor and issues handle 0. -/
theorem create_body_handles_monotonic_witness :
    World.create.WF ∧
      ((∀ h0 ∈ World.create.handles, h0 < 0) ∧
        (World.mk [(0, ⟨⟨0, 5, 0⟩, ⟨0, 0, 0⟩, 1, Vec3.zero⟩)] 1).WF ∧
        ∀ d2 w3 h2,
          (World.mk [(0, ⟨⟨0, 5, 0⟩, ⟨0, 0, 0⟩, 1, Vec3.zero⟩)]
              1).create_body d2 = .ok (w3, h2) → 0 < h2) := by
  have hwf : World.create.WF := by
    intro p hp
    simp [World.create] at hp
  have hc : World.create.create_body smokeDesc =
      .ok (⟨[(0, ⟨⟨0, 5, 0⟩, ⟨0, 0, 0⟩, 1, Vec3.zero⟩)], 1⟩, 0) := by
    simp [World.create_body, World.create, smokeDesc, FVal.isFinite,
      FVal.val, FVec3.isFinite, FVec3.val, Vec3.zero]
  exact ⟨hwf,
    create_body_handles_monotonic World.create smokeDesc _ 0 hwf hc⟩

/-- C9: handles do not transfer between worlds: a handle live in world
A but never issued by world B makes B's `get_position` fail with
InvalidHandle rather than return a position. -/
theorem get_position_cross_world (wA wB : World) (h : ℕ)
    (_hA : h ∈ wA.handles) (hB : h ∉ wB.handles) :
    wB.get_position h = .error .invalidHandle := by
  rw [World.get_position]
  have hnone : wB.bodies.find? (fun hb => hb.1 == h) = none := by
    rw [List.find?_eq_none]
    intro p hp hpe
    exact hB (List.mem_map.mpr ⟨p, hp, by simpa using hpe⟩)
  rw [hnone]

/-- Witness for C9 at a concrete input: handle 0 is live in a one-body
world but unknown to a fresh world, which rejects it. -/
theorem get_position_cross_world_witness :
    (0 ∈ (World.mk [(0, ⟨⟨0, 5, 0⟩, ⟨0, 0, 0⟩, 1, Vec3.zero⟩)]
        1).handles) ∧
      (0 ∉ World.create.handles) ∧
      World.create.get_position 0 = .error .invalidHandle := by
  refine ⟨?_, ?_, ?_⟩
  · simp [World.handles]
  · simp [World.handles, World.create]
  · exact get_position_cross_world
      (World.mk [(0, ⟨⟨0, 5, 0⟩, ⟨0, 0, 0⟩, 1, Vec3.zero⟩)] 1)
      World.create 0 (by simp [World.handles])
      (by simp [World.handles, World.create])

/-- C10: the library is resolved eagerly at import: when no build-tree
candidate path exists and loading the bare name `ape_c` also fails,
module initialization propagates the loader's error, so the import
fails and no public function is obtained. -/
theorem moduleInit_fails_when_unresolvable (root : String)
    (pathExists canLoad : String → Bool)
    (hnone : ∀ c ∈ lib_candidates root, pathExists c = false)
    (hbare : canLoad "ape_c" = false) :
    moduleInit root pathExists canLoad = .error .osError := by
  rw [moduleInit, resolveLib]
  have hfind : (lib_candidates root).find? pathExists = none := by
    rw [List.find?_eq_none]
    intro c hc
    simp [hnone c hc]
  rw [hfind]
  simp [hbare]

/-- Witness for C10 at a concrete input: nothing exists and nothing
loads, so initialization reports the load error. -/
theorem moduleInit_fails_when_unresolvable_witness :
    (∀ c ∈ lib_candidates "r", (fun _ : String => false) c = false) ∧
      ((fun _ : String => false) "ape_c" = false) ∧
      moduleInit "r" (fun _ => false) (fun _ => false) =
        .error .osError :=
  ⟨fun _ _ => rfl, rfl,
    moduleInit_fails_when_unresolvable "r" (fun _ => false)
      (fun _ => false) (fun _ _ => rfl) rfl⟩

end Ape
